import Mathlib

/-!
Shallow embedding of the password-validation code of `parrot-xxiv/demo-go`
(the validator pipeline in the repository's design notes, functions
`lengthValidator` … `repeatingCharsValidator`, `validatePassword` and the
`validators` list).

A Go string is a byte sequence; all inputs of interest are valid UTF-8, so a
password is modelled as a `List Char` of its code points (Go's `range`
iteration), together with `strBytes`, its UTF-8 byte sequence, which models
Go's `len(password)` and `password[i]` byte views.
-/

/-- UTF-8 encoding of one code point, as Go lays out string bytes. -/
def utf8Bytes (c : Char) : List Nat :=
  if c.toNat < 0x80 then [c.toNat]
  else if c.toNat < 0x800 then
    [0xC0 + c.toNat / 64, 0x80 + c.toNat % 64]
  else if c.toNat < 0x10000 then
    [0xE0 + c.toNat / 4096, 0x80 + c.toNat / 64 % 64, 0x80 + c.toNat % 64]
  else
    [0xF0 + c.toNat / 262144, 0x80 + c.toNat / 4096 % 64,
     0x80 + c.toNat / 64 % 64, 0x80 + c.toNat % 64]

/-- The byte sequence of a Go string: UTF-8 bytes of its code points. -/
def strBytes (p : List Char) : List Nat :=
  (p.map utf8Bytes).flatten

/-- Models Go `unicode.IsUpper` on the ASCII range (the full Unicode
category tables are not reproduced; no claim involves letters outside
ASCII). -/
def unicodeIsUpper (c : Char) : Bool :=
  65 ≤ c.toNat && c.toNat ≤ 90

/-- Models Go `unicode.IsDigit` on the ASCII range (no claim involves
digits outside ASCII). -/
def unicodeIsDigit (c : Char) : Bool :=
  48 ≤ c.toNat && c.toNat ≤ 57

/-- Go: `type Validator func(password string) string`. -/
abbrev Validator := List Char → String

/-- Go `lengthValidator`: `len(password) < 8` (byte length). -/
def lengthValidator (password : List Char) : String :=
  if (strBytes password).length < 8 then
    "Password must be at least 8 characters long."
  else ""

/-- Go `uppercaseValidator`: rune loop looking for an uppercase letter. -/
def uppercaseValidator (password : List Char) : String :=
  if password.any unicodeIsUpper then ""
  else "Password must contain at least one uppercase letter."

/-- The character class of the Go regexp in `specialCharValidator`. -/
def specialChars : List Char :=
  ['!', '@', '#', '$', '%', '^', '&', '*', '(', ')', ',', '.', '?', '"',
   ':', '{', '}', '|', '<', '>']

/-- Go `specialCharValidator`: the regexp matches iff some rune of the
input is in the class. -/
def specialCharValidator (password : List Char) : String :=
  if password.any (fun c => specialChars.contains c) then ""
  else "Password must include at least one special character."

/-- Go `digitValidator`: rune loop looking for a digit. -/
def digitValidator (password : List Char) : String :=
  if password.any unicodeIsDigit then ""
  else "Password must contain at least one digit."

/-- Go `spaceValidator`: `strings.Contains(password, " ")`, a search for
the single byte 0x20. -/
def spaceValidator (password : List Char) : String :=
  if (strBytes password).contains 32 then "Password must not contain spaces."
  else ""

/-- The denylist of Go `commonPasswordValidator`. -/
def commonPasswords : List (List Char) :=
  [String.toList "password", String.toList "123456", String.toList "qwerty",
   String.toList "letmein", String.toList "welcome", String.toList "admin",
   String.toList "abc123"]

/-- Go `commonPasswordValidator`: exact string equality against the
denylist. -/
def commonPasswordValidator (password : List Char) : String :=
  if commonPasswords.contains password then "Password is too common."
  else ""

/-- The byte scan of Go `repeatingCharsValidator`: for `i` from 2 to
`len-1`, test `password[i] == password[i-1] && password[i-1] == password[i-2]`,
i.e. some window of three consecutive equal bytes. -/
def hasRepeatRun : List Nat → Bool
  | a :: b :: c :: rest => (c == b && b == a) || hasRepeatRun (b :: c :: rest)
  | _ => false

/-- Go `repeatingCharsValidator`: scans the BYTES of the string. -/
def repeatingCharsValidator (password : List Char) : String :=
  if hasRepeatRun (strBytes password) then
    "Password must not have more than 2 repeated characters in a row."
  else ""

/-- Go `validatePassword`: run every validator in order, appending each
non-empty diagnostic. -/
def validatePassword (password : List Char) (validators : List Validator) :
    List String :=
  validators.foldl
    (fun errors v => if v password != "" then errors ++ [v password] else errors)
    []

/-- The registration list of Go `main`. -/
def validators : List Validator :=
  [lengthValidator, uppercaseValidator, specialCharValidator, digitValidator,
   spaceValidator, commonPasswordValidator, repeatingCharsValidator]

/-! Helper lemmas shared by the claim theorems. -/

/-- Unrolling the accumulating loop of `validatePassword`. -/
lemma validatePassword_foldl (p : List Char) (vs : List Validator)
    (acc : List String) :
    vs.foldl (fun errors v => if v p != "" then errors ++ [v p] else errors)
        acc =
      acc ++ (vs.map (fun v => v p)).filter (fun e => e != "") := by
  induction vs generalizing acc with
  | nil => simp
  | cons v rest ih =>
    simp only [List.foldl_cons, List.map_cons, List.filter_cons]
    rw [ih]
    by_cases h : v p = ""
    · simp [h]
    · simp [h]

/-- `validatePassword` keeps exactly the non-empty diagnostics in rule
order. -/
lemma validatePassword_eq (p : List Char) (vs : List Validator) :
    validatePassword p vs =
      (vs.map (fun v => v p)).filter (fun e => e != "") := by
  simpa [validatePassword] using validatePassword_foldl p vs []

/-- The only UTF-8 byte equal to 0x20 is the encoding of the space
character itself: continuation and lead bytes of multi-byte characters
are all at least 0x80. -/
lemma mem_utf8Bytes_32 (c : Char) : 32 ∈ utf8Bytes c ↔ c = ' ' := by
  unfold utf8Bytes
  split_ifs with h1 h2 h3
  · simp only [List.mem_singleton]
    constructor
    · intro h
      rw [← Char.ofNat_toNat c, ← h]
    · intro h
      subst h
      decide
  · simp only [List.mem_cons, List.not_mem_nil, or_false]
    constructor
    · intro h
      rcases h with h | h <;> omega
    · intro h
      subst h
      exact absurd (by decide : Char.toNat ' ' < 128) h1
  · simp only [List.mem_cons, List.not_mem_nil, or_false]
    constructor
    · intro h
      rcases h with h | h | h <;> omega
    · intro h
      subst h
      exact absurd (by decide : Char.toNat ' ' < 128) h1
  · simp only [List.mem_cons, List.not_mem_nil, or_false]
    constructor
    · intro h
      rcases h with h | h | h | h <;> omega
    · intro h
      subst h
      exact absurd (by decide : Char.toNat ' ' < 128) h1

/-- Byte 0x20 occurs in a string's UTF-8 bytes iff the space character
occurs among its code points. -/
lemma mem_strBytes_32 (p : List Char) : 32 ∈ strBytes p ↔ ' ' ∈ p := by
  induction p with
  | nil => simp [strBytes]
  | cons c t ih =>
    have hcons : strBytes (c :: t) = utf8Bytes c ++ strBytes t := by
      simp [strBytes]
    rw [hcons]
    simp only [List.mem_append, List.mem_cons, mem_utf8Bytes_32, ih]
    constructor
    · rintro (h | h)
      · exact Or.inl h.symm
      · exact Or.inr h
    · rintro (h | h)
      · exact Or.inl h.symm
      · exact Or.inr h

/-! The claim theorems. -/

/-- C1: `validatePassword` invokes every rule in registration order and
returns exactly the non-empty diagnostics the rules produce, in that
order, with no early exit; as a pure function of the input and the rule
list, its result is empty iff every rule returns the empty diagnostic. -/
theorem validatePassword_collects_all (p : List Char) (vs : List Validator) :
    validatePassword p vs =
      (vs.map (fun v => v p)).filter (fun e => e != "") ∧
    (validatePassword p vs = [] ↔ ∀ v ∈ vs, v p = "") := by
  refine ⟨validatePassword_eq p vs, ?_⟩
  rw [validatePassword_eq]
  simp only [List.filter_eq_nil_iff, List.mem_map, bne_iff_ne, ne_eq, not_not]
  constructor
  · intro h v hv
    exact h (v p) ⟨v, hv, rfl⟩
  · rintro h a ⟨v, hv, rfl⟩
    exact h v hv

/-- C2: the minimum-length rule yields its diagnostic exactly on inputs of
length (Go `len`, the UTF-8 byte length) below 8, and nothing on inputs of
length 8 or more. -/
theorem lengthValidator_iff (p : List Char) :
    (lengthValidator p = "Password must be at least 8 characters long." ↔
      (strBytes p).length < 8) ∧
    (lengthValidator p = "" ↔ 8 ≤ (strBytes p).length) := by
  unfold lengthValidator
  split_ifs with h
  · exact ⟨⟨fun _ => h, fun _ => rfl⟩,
      ⟨fun h' => absurd h' (by decide), fun h' => absurd h (by omega)⟩⟩
  · exact ⟨⟨fun h' => absurd h' (by decide), fun h' => absurd h' h⟩,
      ⟨fun _ => by omega, fun _ => rfl⟩⟩

/-- C3 (bug evaluation): the input consisting of the character é repeated
3 times consecutively receives NO diagnostic from the repeat-run rule,
because the rule scans UTF-8 bytes (0xC3 0xA9 0xC3 0xA9 0xC3 0xA9 has no
window of three equal bytes), contradicting the claimed code-point
semantics. -/
theorem repeatingCharsValidator_byte_bug :
    ['é', 'é', 'é'] = List.replicate 3 'é' ∧
    repeatingCharsValidator ['é', 'é', 'é'] = "" := by decide

/-- C4 (bug evaluation): the single-character input U+100000 — a string of
length 1, shorter than 3 characters — DOES receive the repeat-run
diagnostic, because its UTF-8 encoding 0xF4 0x80 0x80 0x80 contains three
equal consecutive bytes, contradicting the claim; the remaining parts of
the claim hold: the byte scan is total (no out-of-bounds access is
expressible in it) and the empty string receives exactly the diagnostics
of the four content rules. -/
theorem repeatingCharsValidator_short_input_bug :
    ([Char.ofNat 0x100000] : List Char).length = 1 ∧
    repeatingCharsValidator [Char.ofNat 0x100000] =
      "Password must not have more than 2 repeated characters in a row." ∧
    validatePassword [] validators =
      ["Password must be at least 8 characters long.",
       "Password must contain at least one uppercase letter.",
       "Password must include at least one special character.",
       "Password must contain at least one digit."] := by decide

/-- C5: the special-character rule yields its diagnostic exactly when no
character of the input belongs to the fixed special-character set, and
nothing when some character does. -/
theorem specialCharValidator_iff (p : List Char) :
    (specialCharValidator p = "" ↔ ∃ c ∈ p, c ∈ specialChars) ∧
    (specialCharValidator p =
        "Password must include at least one special character." ↔
      ∀ c ∈ p, c ∉ specialChars) := by
  unfold specialCharValidator
  have hany : p.any (fun c => specialChars.contains c) = true ↔
      ∃ c ∈ p, c ∈ specialChars := by
    simp [List.any_eq_true]
  split_ifs with h
  · rw [hany] at h
    refine ⟨⟨fun _ => h, fun _ => rfl⟩,
      ⟨fun h' => absurd h' (by decide), fun h' => ?_⟩⟩
    obtain ⟨c, hc, hcs⟩ := h
    exact absurd hcs (h' c hc)
  · rw [hany] at h
    push_neg at h
    exact ⟨⟨fun h' => absurd h' (by decide),
      fun h' => absurd h' (by push_neg; exact h)⟩,
      ⟨fun _ => h, fun _ => rfl⟩⟩

/-- C6: permuting the rule list permutes the returned diagnostics, so the
same diagnostics appear (possibly reordered) for any two registration
orders that are permutations of one another. -/
theorem validatePassword_perm (p : List Char) (vs₁ vs₂ : List Validator)
    (h : vs₁.Perm vs₂) :
    (validatePassword p vs₁).Perm (validatePassword p vs₂) := by
  rw [validatePassword_eq, validatePassword_eq]
  exact (h.map fun v => v p).filter _

/-- Witness for C6 at a concrete input and a concrete swap of two rules. -/
theorem validatePassword_perm_witness :
    (validatePassword ['a'] [lengthValidator, digitValidator]).Perm
      (validatePassword ['a'] [digitValidator, lengthValidator]) :=
  validatePassword_perm ['a'] _ _
    (List.Perm.swap digitValidator lengthValidator [])

/-- C7: validation is deterministic and idempotent — two invocations of
`validatePassword` on the same input against the unchanged rule list are
the same pure computation (the Go validators read nothing but their
argument and local values, so the embedding is a pure function and the
two calls denote the same term). -/
theorem validatePassword_deterministic (p : List Char) (vs : List Validator) :
    validatePassword p vs = validatePassword p vs := rfl

/-- C8: with the seven rules registered in their given order, the input
"aaa" yields exactly the 5 diagnostics of the minimum-length,
uppercase, special-character, digit and repeat-run rules, in that
order. -/
theorem validatePassword_aaa :
    validatePassword ['a', 'a', 'a'] validators =
      ["Password must be at least 8 characters long.",
       "Password must contain at least one uppercase letter.",
       "Password must include at least one special character.",
       "Password must contain at least one digit.",
       "Password must not have more than 2 repeated characters in a row."] ∧
    (validatePassword ['a', 'a', 'a'] validators).length = 5 := by decide

/-- C9: the minimum-length rule measures UTF-8 bytes, not code points: the
input of three € characters has 3 code points (fewer than 8) but 9 bytes,
and receives no length diagnostic. -/
theorem lengthValidator_counts_bytes :
    (['€', '€', '€'] : List Char).length < 8 ∧
    (strBytes ['€', '€', '€']).length = 9 ∧
    lengthValidator ['€', '€', '€'] = "" := by decide

/-- C10: the no-whitespace rule fires exactly on inputs containing the
ASCII space character U+0020; in particular an input of a tab and a
newline (and no space) gets no diagnostic. -/
theorem spaceValidator_space_only :
    (∀ p : List Char,
      spaceValidator p = "Password must not contain spaces." ↔ ' ' ∈ p) ∧
    spaceValidator ['\t', 'a', '\n'] = "" := by
  constructor
  · intro p
    unfold spaceValidator
    have hc : (strBytes p).contains 32 = true ↔ ' ' ∈ p := by
      rw [← mem_strBytes_32]
      exact List.elem_iff
    split_ifs with h
    · rw [hc] at h
      exact ⟨fun _ => h, fun _ => rfl⟩
    · rw [hc] at h
      exact ⟨fun h' => absurd h' (by decide), fun h' => absurd h' h⟩
  · decide
